import Mathlib

/-!
Verification of the ImperioCasino game settlement engine.

Shallow embedding of the Python sources under
`session_management/imperioApp/` — in particular
`game_logic/blackjack.py`, `game_logic/roulette.py`,
`game_logic/cherrycharm.py` and `utils/models.py` — together with
theorems settling the specification claims about them.

Modelling conventions:
* Python integers are `Int` (coin balances can in principle go negative,
  nothing clamps them).
* Python `None` / missing dict keys become `Option`.
* Randomness (`random.shuffle`, `random.randint`, `random.choice`) is
  injected as an explicit argument, as the spec's design notes demand.
* Fallible operations (popping an empty deck) return `Option`; `none`
  corresponds to the Python code raising.
* Database state that a function may mutate is passed and returned
  explicitly; an error return before `db.session.commit()` leaves the
  committed state untouched (Flask-SQLAlchemy rolls the session back at
  request teardown), which we model by returning the input state on
  those paths.
-/

set_option maxHeartbeats 1000000
set_option linter.unusedTactic false

namespace ImperioCasino

/-- A playing card, as stored by `game_logic/blackjack.py` in
`deck = [{'suit': suit, 'name': name, 'value': value} ...]`. -/
structure Card where
  suit : String
  name : String
  value : Int
deriving DecidableEq, Repr

/-- The ace-reduction loop of `calculate_hand_value`
(`while value > 21 and aces: value -= 10; aces -= 1`).  The `Nat`
argument is the remaining ace count. -/
def reduceAces (value : Int) : Nat → Int
  | 0 => value
  | aces + 1 => if 21 < value then reduceAces (value - 10) aces else value

/-- `aces = sum(1 for card in hand if card['name'] == 'Ace')`. -/
def countAces (hand : List Card) : Nat :=
  hand.countP (fun c => c.name == "Ace")

/-- `value = sum(card['value'] for card in hand)`; in the shipped deck an
Ace contributes its stored nominal value 11 here. -/
def baseValue (hand : List Card) : Int :=
  (hand.map (fun c => c.value)).sum

/-- `calculate_hand_value` from `game_logic/blackjack.py`, lines 23-29. -/
def calculate_hand_value (hand : List Card) : Int :=
  reduceAces (baseValue hand) (countAces hand)

/-- Characterisation of the ace-reduction loop: it subtracts `10` exactly
`k` times where `k` is the least count making the value drop to at most
21, stopping at the ace count if no such `k` exists. -/
theorem reduceAces_spec (a : Nat) : ∀ v : Int,
    ∃ k : Nat, k ≤ a ∧ reduceAces v a = v - 10 * k ∧
      (∀ j : Nat, j < k → 21 < v - 10 * j) ∧
      (reduceAces v a ≤ 21 ∨ k = a) := by
  induction a with
  | zero =>
    intro v
    refine ⟨0, le_refl 0, by simp [reduceAces], ?_, Or.inr rfl⟩
    intro j hj
    omega
  | succ n ih =>
    intro v
    by_cases hv : 21 < v
    · obtain ⟨k, hk, heq, hmin, hlast⟩ := ih (v - 10)
      refine ⟨k + 1, by omega, ?_, ?_, ?_⟩
      · rw [reduceAces, if_pos hv, heq]
        push_cast
        ring
      · intro j hj
        cases j with
        | zero => simpa using hv
        | succ j' =>
          have := hmin j' (by omega)
          push_cast at this ⊢
          omega
      · rw [reduceAces, if_pos hv]
        cases hlast with
        | inl h => exact Or.inl h
        | inr h => exact Or.inr (by omega)
    · refine ⟨0, by omega, ?_, ?_, Or.inl ?_⟩
      · rw [reduceAces, if_neg hv]
        simp
      · intro j hj
        omega
      · rw [reduceAces, if_neg hv]
        omega

/-- Sum of the nominal values of the non-Ace cards of a hand. -/
def nonAceSum (hand : List Card) : Int :=
  ((hand.filter (fun c => !(c.name == "Ace"))).map (fun c => c.value)).sum

/-- Total of a hand under an explicit assignment of each Ace to 11
(`true`) or 1 (`false`): the claimed "assignment of Ace values" for
`handValue`.  `asEleven` lists one choice per Ace of the hand. -/
def assignmentTotal (hand : List Card) (asEleven : List Bool) : Int :=
  nonAceSum hand + (asEleven.map (fun b => if b then (11 : Int) else 1)).sum

theorem baseValue_eq_nonAceSum (hand : List Card)
    (h11 : ∀ c ∈ hand, c.name = "Ace" → c.value = 11) :
    baseValue hand = nonAceSum hand + 11 * (countAces hand : Int) := by
  induction hand with
  | nil => simp [baseValue, nonAceSum, countAces]
  | cons c t ih =>
    have ht : ∀ x ∈ t, x.name = "Ace" → x.value = 11 := by
      intro x hx
      exact h11 x (List.mem_cons_of_mem _ hx)
    have ihs := ih ht
    by_cases hc : c.name = "Ace"
    · have hval : c.value = 11 := h11 c (List.mem_cons_self _ _) hc
      simp [baseValue, nonAceSum, countAces, List.countP_cons, hc, hval] at ihs ⊢
      omega
    · simp [baseValue, nonAceSum, countAces, List.countP_cons, hc] at ihs ⊢
      omega

theorem assignment_sum_eq (bs : List Bool) :
    (bs.map (fun b => if b then (11 : Int) else 1)).sum =
      11 * (bs.length : Int) - 10 * (bs.count false : Int) := by
  induction bs with
  | nil => simp
  | cons b t ih =>
    cases b <;> simp [List.count_cons, ih] <;> push_cast <;> ring

theorem assignmentTotal_eq (hand : List Card) (bs : List Bool)
    (h11 : ∀ c ∈ hand, c.name = "Ace" → c.value = 11)
    (hlen : bs.length = countAces hand) :
    assignmentTotal hand bs = baseValue hand - 10 * (bs.count false : Int) := by
  rw [assignmentTotal, assignment_sum_eq, baseValue_eq_nonAceSum hand h11, hlen]
  ring

theorem count_false_replicate_true (m : Nat) :
    (List.replicate m true).count false = 0 := by
  induction m with
  | zero => simp
  | succ m' ihm => simp [List.replicate_succ, List.count_cons, ihm]

theorem count_false_mix (k m : Nat) :
    ((List.replicate k false ++ List.replicate m true).count false) = k := by
  induction k with
  | zero => simp [count_false_replicate_true]
  | succ k' ihk => simp [List.replicate_succ, List.count_cons, ihk]

theorem count_false_replicate_false (n : Nat) :
    (List.replicate n false).count false = n := by
  simp

/-- Cards from the shipped six-deck shoe, used as concrete inputs. -/
def aceOfHearts : Card := ⟨"hearts", "Ace", 11⟩

def aceOfSpades : Card := ⟨"spades", "Ace", 11⟩

def kingOfSpades : Card := ⟨"spades", "King", 10⟩

def queenOfSpades : Card := ⟨"spades", "Queen", 10⟩

def twoOfClubs : Card := ⟨"clubs", "2", 2⟩

def nineOfHearts : Card := ⟨"hearts", "9", 9⟩

/-- C3 counterexample.  The claim says `handValue` returns the *minimal*
achievable value ≤ 21, and on a bust the *all-Aces-as-11* sum.  Both
parts fail on the code: on `[Ace, Ace]` the assignments yield totals
22, 12, 12, 2, so the minimal achievable value ≤ 21 is 2, yet
`calculate_hand_value` returns 12 (the maximal one); and on
`[Ace, King, Queen, 2]` no assignment reaches ≤ 21 (totals 33 and 23)
and the code returns 23 (all Aces as 1), not the all-Aces-as-11 sum 33. -/
theorem handValue_claim_counterexample :
    (calculate_hand_value [aceOfHearts, aceOfSpades] = 12 ∧
     assignmentTotal [aceOfHearts, aceOfSpades] [false, false] = 2 ∧
     assignmentTotal [aceOfHearts, aceOfSpades] [true, false] = 12 ∧
     assignmentTotal [aceOfHearts, aceOfSpades] [false, true] = 12 ∧
     assignmentTotal [aceOfHearts, aceOfSpades] [true, true] = 22 ∧
     (12 : Int) ≠ 2) ∧
    (calculate_hand_value [aceOfHearts, kingOfSpades, queenOfSpades, twoOfClubs] = 23 ∧
     baseValue [aceOfHearts, kingOfSpades, queenOfSpades, twoOfClubs] = 33 ∧
     assignmentTotal [aceOfHearts, kingOfSpades, queenOfSpades, twoOfClubs] [true] = 33 ∧
     assignmentTotal [aceOfHearts, kingOfSpades, queenOfSpades, twoOfClubs] [false] = 23 ∧
     (23 : Int) ≠ 33) := by
  decide

/-- C3 (amended): for every hand whose Aces carry nominal value 11, if
some assignment of each Ace to 11 or 1 yields a total ≤ 21 then
`calculate_hand_value` returns a value ≤ 21, that value is itself an
assignment total, and it is the *maximal* achievable total ≤ 21;
otherwise it returns the all-Aces-as-1 sum (the minimum assignment
total), not the all-Aces-as-11 sum. -/
theorem handValue_max_achievable_or_all_ones (hand : List Card)
    (h11 : ∀ c ∈ hand, c.name = "Ace" → c.value = 11) :
    ((∃ bs : List Bool, bs.length = countAces hand ∧ assignmentTotal hand bs ≤ 21) →
      (calculate_hand_value hand ≤ 21 ∧
       (∃ bs : List Bool, bs.length = countAces hand ∧
          assignmentTotal hand bs = calculate_hand_value hand) ∧
       (∀ bs : List Bool, bs.length = countAces hand → assignmentTotal hand bs ≤ 21 →
          assignmentTotal hand bs ≤ calculate_hand_value hand))) ∧
    ((∀ bs : List Bool, bs.length = countAces hand → ¬ assignmentTotal hand bs ≤ 21) →
      calculate_hand_value hand =
        assignmentTotal hand (List.replicate (countAces hand) false)) := by
  obtain ⟨k, hk, heq, hmin, hlast⟩ := reduceAces_spec (countAces hand) (baseValue hand)
  have hres : calculate_hand_value hand = baseValue hand - 10 * (k : Int) := heq
  have hmix : ∀ j : Nat, j ≤ countAces hand →
      assignmentTotal hand
          (List.replicate j false ++ List.replicate (countAces hand - j) true)
        = baseValue hand - 10 * (j : Int) := by
    intro j hj
    have hlen : (List.replicate j false ++
        List.replicate (countAces hand - j) true).length = countAces hand := by
      simp
      omega
    rw [assignmentTotal_eq hand _ h11 hlen, count_false_mix]
  constructor
  · rintro ⟨bs, hbl, hble⟩
    have hc : bs.count false ≤ countAces hand := hbl ▸ List.count_le_length _ _
    have hble' : baseValue hand - 10 * (bs.count false : Int) ≤ 21 := by
      rw [← assignmentTotal_eq hand bs h11 hbl]
      exact hble
    have hres21 : calculate_hand_value hand ≤ 21 := by
      rcases hlast with h | h
      · exact h
      · rcases Nat.lt_or_ge (bs.count false) k with hlt | hge
        · exact absurd hble' (by have := hmin _ hlt; omega)
        · have : bs.count false = k := by omega
          rw [hres]
          omega
    refine ⟨hres21, ?_, ?_⟩
    · exact ⟨List.replicate k false ++ List.replicate (countAces hand - k) true,
        by simp; omega, by rw [hmix k hk, ← hres]⟩
    · intro bs' hbl' hble'
      have hc' : bs'.count false ≤ countAces hand := hbl' ▸ List.count_le_length _ _
      rw [assignmentTotal_eq hand bs' h11 hbl'] at hble' ⊢
      rcases Nat.lt_or_ge (bs'.count false) k with hlt | hge
      · exact absurd hble' (by have := hmin _ hlt; omega)
      · rw [hres]
        omega
  · intro hall
    have hgt : ∀ j : Nat, j ≤ countAces hand → 21 < baseValue hand - 10 * (j : Int) := by
      intro j hj
      have := hall (List.replicate j false ++ List.replicate (countAces hand - j) true)
        (by simp; omega)
      rw [hmix j hj] at this
      omega
    have hka : k = countAces hand := by
      rcases hlast with h | h
      · exact absurd h (by have := hgt k hk; omega)
      · exact h
    have hlen : (List.replicate (countAces hand) false).length = countAces hand := by simp
    rw [assignmentTotal_eq hand _ h11 hlen, count_false_replicate_false, hres, hka]

/-- C3 witness: on the hand `[Ace, 9]` the theorem's hypotheses hold and
an assignment (`Ace` as 11) achieves 20 ≤ 21, so the code's value is
≤ 21. -/
theorem handValue_max_achievable_witness :
    calculate_hand_value [aceOfHearts, nineOfHearts] ≤ 21 :=
  ((handValue_max_achievable_or_all_ones [aceOfHearts, nineOfHearts] (by decide)).1
    ⟨[true], by decide, by decide⟩).1

/-- The `User` row of `utils/models.py` restricted to the fields the
settlement engine touches: the id and the integer coin balance. -/
structure User where
  id : Nat
  coins : Int
deriving DecidableEq, Repr

/-- The `BlackjackGameState` row of `utils/models.py` (fields the engine
reads or writes; `id` and timestamps omitted).  The draw pile is a
stack; Python pops from the tail of the list, we store the pile with
the next card to be drawn at the head, so a pop is head removal. -/
structure GameState where
  user_id : Nat
  deck : List Card
  dealer_hand : List Card
  player_hand : List Card
  player_second_hand : List Card
  player_coins : Int
  current_wager : Int
  game_over : Bool
  message : String
  player_stood : Bool
  double_down : Bool
  split : Bool
  current_hand : String
  dealer_value : Option Int
deriving DecidableEq, Repr

/-- `deck.pop()`: removes and returns the next card; `none` models the
`IndexError` raised on an exhausted deck. -/
def popCard : List Card → Option (Card × List Card)
  | [] => none
  | c :: rest => some (c, rest)

/-- `compare_hands` from `game_logic/blackjack.py`, lines 253-263. -/
def compare_hands (player_value dealer_value : Int) : String :=
  if 21 < player_value then "lose"
  else if 21 < dealer_value then "win"
  else if dealer_value < player_value then "win"
  else if player_value = dealer_value then "tie"
  else "lose"

/-- The dealer's drawing loop (`dealer_turn`, lines 207-213):
`while dealer_value < 17: dealer_hand.append(deck.pop())`.  Returns the
remaining deck and the final dealer hand; `none` if the deck runs out. -/
def dealer_turn_go (deck dealer : List Card) : Option (List Card × List Card) :=
  if calculate_hand_value dealer < 17 then
    match deck with
    | [] => none
    | c :: rest => dealer_turn_go rest (dealer ++ [c])
  else
    some (deck, dealer)

/-- `dealer_turn` applied to a game state. -/
def dealer_turn (g : GameState) : Option GameState :=
  match dealer_turn_go g.deck g.dealer_hand with
  | none => none
  | some (deck', dealer') => some { g with deck := deck', dealer_hand := dealer' }

/-- Payout for one hand inside `determine_winner`: `win` credits
`2 * current_wager`, `tie` credits `current_wager`, `lose` credits
nothing (the stake was deducted up front). -/
def settle_outcome (coins : Int) (wager : Int) (outcome : String) : Int :=
  if outcome = "win" then coins + wager * 2
  else if outcome = "tie" then coins + wager
  else coins

/-- `determine_winner` from `game_logic/blackjack.py`, lines 215-251.
Mutation of `user.coins` (via `update_user_coins`) is returned as a new
`User`; the function creates no `Transaction` row — `blackjack.py`
contains no `Transaction.create_transaction` call. -/
def determine_winner (user : User) (g : GameState) : User × GameState :=
  let dealer_value := calculate_hand_value g.dealer_hand
  if g.split then
    let o1 := compare_hands (calculate_hand_value g.player_hand) dealer_value
    let coins1 := settle_outcome user.coins g.current_wager o1
    let o2 := compare_hands (calculate_hand_value g.player_second_hand) dealer_value
    let coins2 := settle_outcome coins1 g.current_wager o2
    (⟨user.id, coins2⟩,
     { g with dealer_value := some dealer_value, player_coins := coins2,
              message := "First hand: " ++ o1 ++ ", Second hand: " ++ o2,
              game_over := true })
  else
    let outcome := compare_hands (calculate_hand_value g.player_hand) dealer_value
    let coins' := settle_outcome user.coins g.current_wager outcome
    let msg := if outcome = "win" then "Ganaste!"
      else if outcome = "tie" then "It\x27s a tie." else "Perdiste."
    (⟨user.id, coins'⟩,
     { g with dealer_value := some dealer_value, player_coins := coins',
              message := msg, game_over := true })

/-- `player_hit` from `game_logic/blackjack.py`, lines 104-134.  `none`
models deck exhaustion. -/
def player_hit (user : User) (g : GameState) : Option (User × GameState) :=
  match popCard g.deck with
  | none => none
  | some (card, deck') =>
    let hand := (if g.split ∧ g.current_hand = "second"
        then g.player_second_hand else g.player_hand) ++ [card]
    let g1 := if g.split ∧ g.current_hand = "second"
      then { g with deck := deck', player_second_hand := hand }
      else { g with deck := deck', player_hand := hand }
    let player_value := calculate_hand_value hand
    if 21 < player_value then
      if g1.split ∧ g1.current_hand = "first" then
        some (user, { g1 with current_hand := "second", player_stood := false })
      else
        match dealer_turn { g1 with game_over := true } with
        | none => none
        | some g2 => some (determine_winner user g2)
    else if player_value = 21 then
      match dealer_turn { g1 with player_stood := true, game_over := true } with
      | none => none
      | some g2 => some (determine_winner user g2)
    else if g1.split ∧ g1.current_hand = "first" then
      some (user, { g1 with current_hand := "second", player_stood := false })
    else
      some (user, g1)

/-- Result of a blackjack entry point: a 400-class error message, or a
200 response carrying the updated user and game state. -/
inductive ActionResult where
  | err (msg : String)
  | ok (user : User) (game : GameState)
deriving DecidableEq, Repr

/-- `player_double_down` from `game_logic/blackjack.py`, lines 151-177. -/
def player_double_down (g : GameState) (user : User) : Option ActionResult :=
  if 2 < g.player_hand.length ∨ g.double_down ∨ g.split ∨ g.player_stood then
    some (.err "Cannot double down at this stage")
  else if user.coins < g.current_wager then
    some (.err "Insufficient coins to double down")
  else
    let user1 : User := ⟨user.id, user.coins - g.current_wager⟩
    let g1 := { g with current_wager := g.current_wager * 2,
                       player_coins := user1.coins, double_down := true }
    match popCard g1.deck with
    | none => none
    | some (card, deck') =>
      let g2 := { g1 with deck := deck', player_hand := g1.player_hand ++ [card] }
      if 21 < calculate_hand_value g2.player_hand then
        some (.ok user1 { g2 with message := "Bust! You exceeded 21.", game_over := true })
      else
        match dealer_turn { g2 with player_stood := true } with
        | none => none
        | some g3 =>
          let r := determine_winner user1 g3
          some (.ok r.1 r.2)

/-- `start_game`'s closing of existing games (lines 47-51): every
non-`game_over` row of this user is force-closed. -/
def close_active_games (uid : Nat) (games : List GameState) : List GameState :=
  games.map (fun g =>
    if g.user_id = uid ∧ g.game_over = false then { g with game_over := true } else g)

/-- Result of `start_game`: error, or the updated user, the new game,
and the user's full game-state table after the call. -/
inductive StartResult where
  | err (msg : String)
  | ok (user : User) (game : GameState) (games : List GameState)
deriving DecidableEq, Repr

/-- `start_game` from `game_logic/blackjack.py`, lines 31-83.  The
shuffled six-deck shoe is injected as `shoe`; `games` is the user's
`BlackjackGameState` table.  The wager deduction (line 54) goes through
`locked_user.coins`; no ledger `Transaction` is written anywhere in the
function. -/
def start_game (user : User) (wager : Int) (games : List GameState)
    (shoe : List Card) : Option StartResult :=
  if wager ≤ 0 then some (.err "Invalid wager amount")
  else if user.coins < wager then some (.err "Insufficient coins")
  else
    let closed := close_active_games user.id games
    let user1 : User := ⟨user.id, user.coins - wager⟩
    match popCard shoe with
    | none => none
    | some (c1, d1) =>
      match popCard d1 with
      | none => none
      | some (c2, d2) =>
        match popCard d2 with
        | none => none
        | some (c3, d3) =>
          match popCard d3 with
          | none => none
          | some (c4, d4) =>
            let game : GameState :=
              { user_id := user.id, deck := d4,
                dealer_hand := [c2, c4], player_hand := [c1, c3],
                player_second_hand := [], player_coins := user1.coins,
                current_wager := wager, game_over := false, message := "",
                player_stood := false, double_down := false, split := false,
                current_hand := "first", dealer_value := none }
            some (.ok user1 game (closed ++ [game]))

/-- Observable view of a `player_hit` result: the user, the `game_over`
flag and the selected hand. -/
def hitView : Option (User × GameState) → Option (User × Bool × String)
  | some (u, g) => some (u, g.game_over, g.current_hand)
  | none => none

/-- A split game on its first hand, holding 8 with an 8 in the second
hand; the next card in the deck is a 5 (so the hit reaches 13 < 21). -/
def hitDemoGame : GameState :=
  { user_id := 1, deck := [⟨"hearts", "5", 5⟩],
    dealer_hand := [kingOfSpades, nineOfHearts],
    player_hand := [⟨"hearts", "8", 8⟩],
    player_second_hand := [⟨"diamond", "8", 8⟩],
    player_coins := 900, current_wager := 50, game_over := false,
    message := "", player_stood := false, double_down := false,
    split := true, current_hand := "first", dealer_value := none }

/-- C4 counterexample.  On the first hand of a split game, a hit that
lands below 21 (8 + 5 = 13 here) does leave the game open, but
`player_hit` switches `current_hand` to `"second"` (blackjack.py lines
128-131), so the claim that `current_hand` remains `"first"` is false. -/
theorem player_hit_split_first_switch_counterexample :
    hitDemoGame.current_hand = "first" ∧ hitDemoGame.game_over = false ∧
    calculate_hand_value (hitDemoGame.player_hand ++ [⟨"hearts", "5", 5⟩]) = 13 ∧
    hitView (player_hit ⟨1, 900⟩ hitDemoGame) = some (⟨1, 900⟩, false, "second") ∧
    ("second" : String) ≠ "first" := by
  decide

/-- C4 (amended): a hit whose resulting hand value is below 21 leaves
the game open with the user untouched; the selected hand is unchanged
*except* on the first hand of a split game, where `player_hit` switches
`current_hand` to `"second"`. -/
theorem player_hit_below21_keeps_game_open (user : User) (g : GameState)
    (card : Card) (deck' : List Card)
    (hpop : popCard g.deck = some (card, deck'))
    (hopen : g.game_over = false)
    (hv : calculate_hand_value ((if g.split ∧ g.current_hand = "second"
        then g.player_second_hand else g.player_hand) ++ [card]) < 21) :
    hitView (player_hit user g) =
      some (user, false,
        if g.split ∧ g.current_hand = "first" then "second" else g.current_hand) := by
  unfold player_hit
  rw [hpop]
  dsimp only
  by_cases hsec : g.split ∧ g.current_hand = "second"
  · rw [if_pos hsec] at hv
    simp only [if_pos hsec]
    rw [if_neg (by omega), if_neg (by omega)]
    have hfirst : ¬ (g.split ∧ g.current_hand = "first") := by
      rintro ⟨-, h1⟩
      rw [h1] at hsec
      exact absurd hsec.2 (by decide)
    rw [if_neg (by simpa using hfirst), if_neg hfirst]
    simp [hitView, hopen]
  · rw [if_neg hsec] at hv
    simp only [if_neg hsec]
    rw [if_neg (by omega), if_neg (by omega)]
    by_cases hfirst : g.split ∧ g.current_hand = "first"
    · rw [if_pos (by simpa using hfirst), if_pos hfirst]
      simp [hitView, hopen]
    · rw [if_neg (by simpa using hfirst), if_neg hfirst]
      simp [hitView, hopen]

/-- C4 witness: a non-split open game hitting from 14 to 19 stays open
on the same hand. -/
theorem player_hit_below21_witness :
    hitView (player_hit ⟨1, 950⟩
        { user_id := 1, deck := [⟨"hearts", "5", 5⟩],
          dealer_hand := [kingOfSpades, nineOfHearts],
          player_hand := [⟨"hearts", "6", 6⟩, ⟨"diamond", "8", 8⟩],
          player_second_hand := [], player_coins := 950, current_wager := 50,
          game_over := false, message := "", player_stood := false,
          double_down := false, split := false, current_hand := "first",
          dealer_value := none }) =
      some (⟨1, 950⟩, false, "first") := by
  have h := player_hit_below21_keeps_game_open ⟨1, 950⟩
    { user_id := 1, deck := [⟨"hearts", "5", 5⟩],
      dealer_hand := [kingOfSpades, nineOfHearts],
      player_hand := [⟨"hearts", "6", 6⟩, ⟨"diamond", "8", 8⟩],
      player_second_hand := [], player_coins := 950, current_wager := 50,
      game_over := false, message := "", player_stood := false,
      double_down := false, split := false, current_hand := "first",
      dealer_value := none }
    ⟨"hearts", "5", 5⟩ [] (by decide) (by decide) (by decide)
  simpa using h

/-- Observable view of a `player_double_down` result: final coins,
wager, message and `game_over`. -/
def ddView : Option ActionResult → Option (Int × Int × String × Bool)
  | some (.ok u g) => some (u.coins, g.current_wager, g.message, g.game_over)
  | _ => none

/-- Draw order for the C5 scenario: player 6, dealer 10, player 5,
dealer 9, then the double-down card King (6 + 5 + 10 = 21; dealer 19). -/
def ddShoe : List Card :=
  [⟨"hearts", "6", 6⟩, ⟨"diamond", "10", 10⟩, ⟨"hearts", "5", 5⟩,
   ⟨"diamond", "9", 9⟩, kingOfSpades]

/-- The claim's scenario run end to end from a pre-bet balance of 1000
with wager 50: `start_game` then `player_double_down`, projecting final
coins, message, final player hand value and dealer value. -/
def doubleDownDemo : Option (Int × String × Int × Option Int) :=
  match start_game ⟨1, 1000⟩ 50 [] ddShoe with
  | some (.ok user1 game1 _) =>
    match player_double_down game1 user1 with
    | some (.ok user2 game2) =>
      some (user2.coins, game2.message, calculate_hand_value game2.player_hand,
            game2.dealer_value)
    | _ => none
  | _ => none

/-- C5 counterexample.  Pre-bet balance 1000, wager 50: the stake and
the double-down reserve are deducted (1000 → 950 → 900) and the win
credits `2 × (2×50) = 200`, ending at 1100.  That is pre-bet + 2×wager;
the claimed pre-bet + 4×wager = 1200 is wrong. -/
theorem double_down_claim_counterexample :
    doubleDownDemo = some (1100, "Ganaste!", 21, some 19) ∧
    (1100 : Int) = 1000 + 2 * 50 ∧ (1100 : Int) ≠ 1000 + 4 * 50 := by
  decide

/-- C5 (amended): when double-down is accepted, the drawn card brings
the player to 21 and the dealer finishes below 21, the outcome is a win
on the doubled wager and the final balance is the pre-bet balance
(`user.coins + current_wager`, since `start_game` already deducted the
stake) plus `2 × wager`: the extra stake is deducted and `2 × (2×wager)`
credited, a net gain of twice the original wager, not four times. -/
theorem double_down_win_nets_twice_wager (user : User) (g : GameState)
    (card : Card) (deck' deck'' dealer' : List Card)
    (hcards : ¬ 2 < g.player_hand.length) (hdd : g.double_down = false)
    (hsplit : g.split = false) (hstood : g.player_stood = false)
    (hcoins : g.current_wager ≤ user.coins)
    (hpop : popCard g.deck = some (card, deck'))
    (h21 : calculate_hand_value (g.player_hand ++ [card]) = 21)
    (hdealer : dealer_turn_go deck' g.dealer_hand = some (deck'', dealer'))
    (hdv : calculate_hand_value dealer' < 21) :
    ddView (player_double_down g user) =
      some ((user.coins + g.current_wager) + 2 * g.current_wager,
            2 * g.current_wager, "Ganaste!", true) := by
  unfold player_double_down
  rw [if_neg (by simp [hdd, hsplit, hstood, hcards]), if_neg (by omega)]
  dsimp only
  rw [hpop]
  dsimp only
  rw [h21, if_neg (by omega)]
  unfold dealer_turn
  dsimp only
  rw [hdealer]
  dsimp only
  unfold determine_winner
  rw [if_neg (by simp [hsplit])]
  dsimp only
  rw [h21]
  unfold compare_hands
  rw [if_neg (by omega), if_neg (by omega), if_pos hdv]
  simp only [ddView, settle_outcome, if_pos rfl]
  refine congrArg some ?_
  simp only [if_true, Prod.mk.injEq]
  exact ⟨by ring, by ring, trivial⟩

/-- The accepted double-down position used by the C5 witness: hand
6 + 5 against dealer 10 + 9, wager 50, 950 coins after the initial
stake, King on top of the deck. -/
def ddWitnessGame : GameState :=
  { user_id := 1, deck := [kingOfSpades],
    dealer_hand := [⟨"diamond", "10", 10⟩, ⟨"diamond", "9", 9⟩],
    player_hand := [⟨"hearts", "6", 6⟩, ⟨"hearts", "5", 5⟩],
    player_second_hand := [], player_coins := 950, current_wager := 50,
    game_over := false, message := "", player_stood := false,
    double_down := false, split := false, current_hand := "first",
    dealer_value := none }

/-- C5 witness: the amended theorem at the concrete scenario; the final
balance is (950 + 50) + 100 = 1100. -/
theorem double_down_win_nets_twice_wager_witness :
    ddView (player_double_down ddWitnessGame ⟨1, 950⟩) =
      some (1100, 100, "Ganaste!", true) := by
  have h := double_down_win_nets_twice_wager ⟨1, 950⟩ ddWitnessGame
    kingOfSpades [] []
    [⟨"diamond", "10", 10⟩, ⟨"diamond", "9", 9⟩]
    (by decide) (by decide) (by decide) (by decide) (by decide)
    (by decide) (by decide) (by decide) (by decide)
  simpa using h

/-- After `close_active_games`, no game of the user is still open. -/
theorem close_active_games_countP (uid : Nat) (games : List GameState) :
    List.countP (fun g => g.user_id == uid && !g.game_over)
      (close_active_games uid games) = 0 := by
  induction games with
  | nil => rfl
  | cons g t ih =>
    rw [close_active_games, List.map_cons, List.countP_cons]
    rw [close_active_games] at ih
    by_cases h : g.user_id = uid ∧ g.game_over = false
    · rw [if_pos h]
      simp [ih]
    · rw [if_neg h]
      have hp : (g.user_id == uid && !g.game_over) = false := by
        by_cases h1 : g.user_id = uid
        · have h2 : g.game_over = true := by
            rcases Bool.eq_false_or_eq_true g.game_over with hb | hb
            · exact hb
            · exact absurd ⟨h1, hb⟩ h
          simp [h1, h2]
        · simp [h1]
      simp [hp, ih]

/-- C9: a successful `start_game` call leaves exactly one open
`BlackjackGameState` for the account: it first force-closes every open
game of the user (lines 47-51) and then appends the single new open
game. -/
theorem start_game_single_open_game (user : User) (wager : Int)
    (games : List GameState) (shoe : List Card)
    (user' : User) (game : GameState) (games' : List GameState)
    (hok : start_game user wager games shoe = some (.ok user' game games')) :
    List.countP (fun g => g.user_id == user.id && !g.game_over) games' = 1 := by
  rcases shoe with _ | ⟨c1, _ | ⟨c2, _ | ⟨c3, _ | ⟨c4, rest⟩⟩⟩⟩ <;>
    simp only [start_game, popCard] at hok <;> split_ifs at hok <;> simp at hok
  obtain ⟨-, -, hg⟩ := hok
  subst hg
  rw [List.countP_append, close_active_games_countP]
  simp

/-- A stale open game that `start_game` must force-close. -/
def staleGame : GameState :=
  { user_id := 1, deck := [], dealer_hand := [], player_hand := [],
    player_second_hand := [], player_coins := 0, current_wager := 10,
    game_over := false, message := "", player_stood := false,
    double_down := false, split := false, current_hand := "first",
    dealer_value := none }

/-- The game created by the witness call below. -/
def startDemoGame : GameState :=
  { user_id := 1, deck := [kingOfSpades],
    dealer_hand := [⟨"diamond", "10", 10⟩, ⟨"diamond", "9", 9⟩],
    player_hand := [⟨"hearts", "6", 6⟩, ⟨"hearts", "5", 5⟩],
    player_second_hand := [], player_coins := 950, current_wager := 50,
    game_over := false, message := "", player_stood := false,
    double_down := false, split := false, current_hand := "first",
    dealer_value := none }

/-- C9 witness: starting a game with a stale open game present yields a
table whose only open entry for the account is the new game. -/
theorem start_game_single_open_game_witness :
    List.countP (fun g => g.user_id == 1 && !g.game_over)
      [{ staleGame with game_over := true }, startDemoGame] = 1 :=
  start_game_single_open_game ⟨1, 1000⟩ 50 [staleGame] ddShoe
    ⟨1, 950⟩ startDemoGame [{ staleGame with game_over := true }, startDemoGame]
    (by decide)

/-- `TransactionType` from `utils/models.py`. -/
inductive TxnType where
  | bet | win | loss | deposit | withdrawal | bonus | refund | adjustment
deriving DecidableEq, Repr

/-- A `Transaction` row (`utils/models.py`, lines 71-133) restricted to
the audited fields; game type, description, metadata, reference id and
timestamps are omitted as no claim mentions them. -/
structure LedgerTxn where
  txnType : TxnType
  amount : Int
  balance_before : Int
  balance_after : Int
deriving DecidableEq, Repr

/-- `Transaction.create_transaction` (`utils/models.py`, lines 135-165):
`balance_before = user.coins`, `balance_after = user.coins + amount`,
reading whatever `user.coins` holds at call time. -/
def create_transaction (userCoins : Int) (ttype : TxnType) (amount : Int) : LedgerTxn :=
  { txnType := ttype, amount := amount,
    balance_before := userCoins, balance_after := userCoins + amount }

/-- One ledger-recorded balance operation as every caller in the
repository performs it (`roulette.py` lines 48-68 and 110-127,
`cherrycharm.py` lines 137-180, `achievement_service.py` lines
188-204): the balance is mutated *first*, then
`Transaction.create_transaction` is called on the already-mutated
user.  Applies a whole sequence, returning the final balance and the
appended transaction log. -/
def applyOps (coins : Int) : List (TxnType × Int) → Int × List LedgerTxn
  | [] => (coins, [])
  | (t, a) :: rest =>
    let coins' := coins + a
    let txn := create_transaction coins' t a
    let r := applyOps coins' rest
    (r.1, txn :: r.2)

/-- C2 counterexample.  Two recorded bets of 10 and 20 from balance 100:
because each entry is created from the already-mutated balance, the
first entry reads `(before 90, after 80)` and the second
`(before 70, after 50)`; the chain `balance_after = 80` vs next
`balance_before = 70` is not contiguous. -/
theorem ledger_chain_not_contiguous_counterexample :
    applyOps 100 [(TxnType.bet, -10), (TxnType.bet, -20)] =
      (70, [⟨TxnType.bet, -10, 90, 80⟩, ⟨TxnType.bet, -20, 70, 50⟩]) ∧
    (80 : Int) ≠ 70 := by
  decide

theorem applyOps_head (coins : Int) (ops : List (TxnType × Int)) :
    (applyOps coins ops).2.head? =
      ops.head?.map (fun op => create_transaction (coins + op.2) op.1 op.2) := by
  cases ops with
  | nil => rfl
  | cons op rest => cases op; rfl

/-- C2 (amended): every entry satisfies
`balance_after = balance_before + amount`, and the final balance equals
the initial balance plus the sum of all amounts — but, because each
entry is created *after* its mutation, the chain law that holds between
consecutive entries is `next.balance_before = prev.balance_before +
next.amount` (each entry's `balance_before` already includes its own
amount); `prev.balance_after = next.balance_before` fails. -/
theorem ledger_entries_reconcile_shifted_chain (coins : Int)
    (ops : List (TxnType × Int)) :
    (∀ t ∈ (applyOps coins ops).2, t.balance_after = t.balance_before + t.amount) ∧
    (applyOps coins ops).1 = coins + (ops.map (fun op => op.2)).sum ∧
    List.Chain' (fun t1 t2 => t2.balance_before = t1.balance_before + t2.amount)
      (applyOps coins ops).2 := by
  induction ops generalizing coins with
  | nil => simp [applyOps]
  | cons op rest ih =>
    obtain ⟨t, a⟩ := op
    obtain ⟨ih1, ih2, ih3⟩ := ih (coins + a)
    refine ⟨?_, ?_, ?_⟩
    · intro txn htxn
      rw [applyOps] at htxn
      rcases List.mem_cons.mp htxn with h | h
      · subst h
        rfl
      · exact ih1 txn h
    · rw [applyOps]
      dsimp only
      rw [ih2, List.map_cons, List.sum_cons]
      ring
    · rw [applyOps]
      dsimp only
      refine List.chain'_cons'.mpr ⟨?_, ih3⟩
      intro y hy
      rw [applyOps_head] at hy
      cases hrest : rest.head? with
      | none => rw [hrest] at hy; simp at hy
      | some op2 =>
        rw [hrest, Option.map_some'] at hy
        have hy' := Option.mem_some_iff.mp hy
        subst hy'
        dsimp [create_transaction]

/-- C2 witness: the amended theorem at a concrete two-operation run. -/
theorem ledger_entries_reconcile_shifted_chain_witness :
    (applyOps 100 [(TxnType.bet, -10), (TxnType.win, 30)]).1 =
      100 + ([(TxnType.bet, -10), (TxnType.win, 30)].map (fun op => op.2)).sum :=
  (ledger_entries_reconcile_shifted_chain 100
    [(TxnType.bet, -10), (TxnType.win, 30)]).2.1

/-- Database state touched by a settlement call: the account balance,
the user's blackjack game rows and the transactions table. -/
structure CasinoDB where
  coins : Int
  games : List GameState
  txns : List LedgerTxn
deriving DecidableEq, Repr

/-- The effect of the `start_game` entry point on the database.  The
coin deduction and the game rows are written back; the transactions
table is returned unchanged because `game_logic/blackjack.py` contains
no `Transaction.create_transaction` call at all — neither here nor in
`player_double_down`, `player_split` or `determine_winner`, which
mutate coins through plain assignment and `update_user_coins`
(`utils/services.py`), a function that only writes `user.coins`. -/
def blackjack_start_db (db : CasinoDB) (uid : Nat) (wager : Int)
    (shoe : List Card) : Option (StartResult × CasinoDB) :=
  match start_game ⟨uid, db.coins⟩ wager db.games shoe with
  | none => none
  | some (.err m) => some (.err m, db)
  | some (.ok user1 game games') =>
    some (.ok user1 game games', { coins := user1.coins, games := games', txns := db.txns })

/-- C1: evaluating the settlement engine at the failing input.  Starting
a blackjack game with wager 50 from balance 1000 succeeds and commits
the deducted balance 950, yet the transactions table stays empty: the
balance change has no ledger `Transaction` entry to reconcile against,
contradicting the ledger requirement (and the `Transaction` model's own
"complete audit trail of all coin movements" documentation). -/
theorem blackjack_start_mutates_balance_without_ledger_entry :
    (blackjack_start_db ⟨1000, [], []⟩ 1 50 ddShoe).map
        (fun r => (r.2.coins, r.2.txns)) = some (950, ([] : List LedgerTxn)) ∧
    (950 : Int) ≠ 1000 := by
  decide

/-- One roulette bet dict from the request body.  `amt` and `odds` are
`none` when the key is missing, `None`, or not a number; `numbers`
represents the outcome of tokenising the `"numbers"` string:
`some l` when every comma-separated token passes `isdigit()` (so the
parsed values are naturals), `none` when some token fails `isdigit()`
(e.g. `"abc"` or a stray empty token); the empty string parses to
`some []`. -/
structure RouletteBet where
  amt : Option Int
  odds : Option Int
  numbers : Option (List Nat)
deriving DecidableEq, Repr

/-- The first loop of `rouletteAction` (`roulette.py` lines 22-32):
validate every bet's `amt` and `odds` before touching funds,
accumulating `total_bet`. -/
def validate_bets : List RouletteBet → Except String Int
  | [] => .ok 0
  | b :: rest =>
    match b.amt with
    | none => .error "Invalid bet amount"
    | some a =>
      if a ≤ 0 then .error "Invalid bet amount"
      else
        match b.odds with
        | none => .error "Invalid odds"
        | some o =>
          if o < 0 then .error "Invalid odds"
          else (validate_bets rest).map (fun t => a + t)

/-- The settlement loop of `rouletteAction` (lines 75-107): parse and
range-check each bet's numbers, then accumulate
`payout = (odds * amt) + amt` for each bet covering the winning number.
A parse or range failure aborts with an error (after the stake was
already deducted in the session). -/
def settle_bets (winning : Nat) : List RouletteBet → Except String Int
  | [] => .ok 0
  | b :: rest =>
    match b.numbers with
    | none => .error "Invalid bet numbers"
    | some nums =>
      if nums.any (fun n => 36 < n) then
        .error "Bet numbers must be between 0 and 36"
      else
        let payout := if nums.contains winning
          then (b.odds.getD 0) * (b.amt.getD 0) + (b.amt.getD 0) else 0
        (settle_bets winning rest).map (fun t => payout + t)

/-- Account-scoped database state for the roulette and slots calls. -/
structure AccountDB where
  coins : Int
  txns : List LedgerTxn
deriving DecidableEq, Repr

/-- Response of `rouletteAction`. -/
inductive RouletteResp where
  | err (msg : String) (status : Nat)
  | ok (winning : Nat) (total_bet : Int) (total_win : Int) (new_coins : Int)
deriving DecidableEq, Repr

/-- `rouletteAction` from `game_logic/roulette.py`.  The drawn winning
number (`random.choice(ROULETTE_NUMBERS)`) is injected.  The single
`db.session.commit()` sits at line 129, after all validation and
settlement; every earlier `return` leaves the session uncommitted, and
Flask-SQLAlchemy rolls it back at request teardown, so the committed
state on those paths is the input `db` — including the path through
lines 88-95 where the session's coins were already decremented and a
BET row added before the numbers of a bet fail to parse. -/
def rouletteAction (db : AccountDB) (bets : List RouletteBet) (winning : Nat) :
    RouletteResp × AccountDB :=
  if bets.isEmpty then (.err "At least one bet is required" 400, db)
  else
    match validate_bets bets with
    | .error msg => (.err msg 400, db)
    | .ok total_bet =>
      if db.coins < total_bet then (.err "Not enough coins for all bets" 400, db)
      else
        let coins1 := db.coins - total_bet
        let betTxn := create_transaction coins1 TxnType.bet (-total_bet)
        match settle_bets winning bets with
        | .error msg => (.err msg 400, db)
        | .ok total_win =>
          if 0 < total_win then
            let coins2 := coins1 + total_win
            let winTxn := create_transaction coins2 TxnType.win total_win
            (.ok winning total_bet total_win coins2,
             ⟨coins2, db.txns ++ [betTxn, winTxn]⟩)
          else
            (.ok winning total_bet total_win coins1,
             ⟨coins1, db.txns ++ [betTxn]⟩)

/-- A bet rejected by the amount/odds validation loop. -/
def badStakeB (b : RouletteBet) : Bool :=
  (match b.amt with | none => true | some a => decide (a ≤ 0)) ||
  (match b.odds with | none => true | some o => decide (o < 0))

/-- A bet rejected by the numbers parsing/range check. -/
def badNumbersB (b : RouletteBet) : Bool :=
  match b.numbers with
  | none => true
  | some nums => nums.any (fun n => 36 < n)

/-- A malformed bet in the sense of the spec: invalid amount, invalid
odds, or unparseable/out-of-range covered numbers. -/
def malformedBetB (b : RouletteBet) : Bool :=
  badStakeB b || badNumbersB b

/-- Projection of a response onto its error status. -/
def errStatus : RouletteResp → Option Nat
  | .err _ s => some s
  | .ok _ _ _ _ => none

theorem validate_bets_error_of_badStake (bets : List RouletteBet)
    (h : ∃ b ∈ bets, badStakeB b = true) :
    ∃ m, validate_bets bets = .error m := by
  induction bets with
  | nil => simp at h
  | cons b rest ih =>
    rw [validate_bets]
    cases ha : b.amt with
    | none => exact ⟨_, rfl⟩
    | some a =>
      dsimp only
      by_cases ha0 : a ≤ 0
      · rw [if_pos ha0]
        exact ⟨_, rfl⟩
      · rw [if_neg ha0]
        cases ho : b.odds with
        | none => exact ⟨_, rfl⟩
        | some o =>
          dsimp only
          by_cases ho0 : o < 0
          · rw [if_pos ho0]
            exact ⟨_, rfl⟩
          · rw [if_neg ho0]
            have hrest : ∃ b2 ∈ rest, badStakeB b2 = true := by
              rcases h with ⟨b2, hb2, hbad⟩
              rcases List.mem_cons.mp hb2 with he | he
              · subst he
                rw [badStakeB, ha, ho] at hbad
                simp at hbad
                omega
              · exact ⟨b2, he, hbad⟩
            obtain ⟨m, hm⟩ := ih hrest
            rw [hm]
            exact ⟨m, rfl⟩

theorem validate_bets_ok_no_badStake (bets : List RouletteBet) (t : Int)
    (h : validate_bets bets = .ok t) :
    ∀ b ∈ bets, badStakeB b = false := by
  intro b hb
  by_contra hbad
  have hbad' : badStakeB b = true := by
    cases hx : badStakeB b
    · exact absurd hx hbad
    · rfl
  obtain ⟨m, hm⟩ := validate_bets_error_of_badStake bets ⟨b, hb, hbad'⟩
  rw [hm] at h
  exact Except.noConfusion h

theorem settle_bets_error_of_badNumbers (winning : Nat) (bets : List RouletteBet)
    (h : ∃ b ∈ bets, badNumbersB b = true) :
    ∃ m, settle_bets winning bets = .error m := by
  induction bets with
  | nil => simp at h
  | cons b rest ih =>
    rw [settle_bets]
    cases hn : b.numbers with
    | none => exact ⟨_, rfl⟩
    | some nums =>
      dsimp only
      by_cases hr : nums.any (fun n => 36 < n) = true
      · rw [if_pos hr]
        exact ⟨_, rfl⟩
      · rw [if_neg hr]
        have hrest : ∃ b2 ∈ rest, badNumbersB b2 = true := by
          rcases h with ⟨b2, hb2, hbad⟩
          rcases List.mem_cons.mp hb2 with he | he
          · subst he
            rw [badNumbersB, hn] at hbad
            exact absurd hbad hr
          · exact ⟨b2, he, hbad⟩
        obtain ⟨m, hm⟩ := ih hrest
        rw [hm]
        exact ⟨m, rfl⟩

/-- C6: a roulette call containing any malformed bet — invalid amount,
invalid odds, or unparseable/out-of-range numbers — ends in a 400-class
error and the committed account state (balance and transaction log) is
exactly the state before the call.  For bad numbers this relies on the
failed call never reaching the commit, so the session's deduction is
rolled back. -/
theorem roulette_malformed_bet_aborts_unchanged (db : AccountDB)
    (bets : List RouletteBet) (winning : Nat)
    (h : ∃ b ∈ bets, malformedBetB b = true) :
    errStatus (rouletteAction db bets winning).1 = some 400 ∧
    (rouletteAction db bets winning).2 = db := by
  have hne : bets.isEmpty = false := by
    rcases h with ⟨b, hb, -⟩
    cases bets
    · simp at hb
    · rfl
  rw [rouletteAction, hne]
  simp only [Bool.false_eq_true, if_false]
  cases hv : validate_bets bets with
  | error msg => exact ⟨rfl, rfl⟩
  | ok total_bet =>
    dsimp only
    have hnums : ∃ b ∈ bets, badNumbersB b = true := by
      rcases h with ⟨b, hb, hbad⟩
      refine ⟨b, hb, ?_⟩
      have hstake := validate_bets_ok_no_badStake bets total_bet hv b hb
      rw [malformedBetB, hstake] at hbad
      simpa using hbad
    by_cases hc : db.coins < total_bet
    · rw [if_pos hc]
      exact ⟨rfl, rfl⟩
    · rw [if_neg hc]
      obtain ⟨m, hm⟩ := settle_bets_error_of_badNumbers winning bets hnums
      rw [hm]
      exact ⟨rfl, rfl⟩

/-- C6 witness: a single bet with well-formed amount and odds but
unparseable numbers (`"abc"`) aborts with no change to a 100-coin
account with an empty transaction log. -/
theorem roulette_malformed_bet_aborts_unchanged_witness :
    errStatus (rouletteAction ⟨100, []⟩ [⟨some 10, some 35, none⟩] 17).1 = some 400 ∧
    (rouletteAction ⟨100, []⟩ [⟨some 10, some 35, none⟩] 17).2 = ⟨100, []⟩ :=
  roulette_malformed_bet_aborts_unchanged ⟨100, []⟩ [⟨some 10, some 35, none⟩] 17
    ⟨⟨some 10, some 35, none⟩, by decide, by decide⟩

/-- A well-formed bet: positive amount, non-negative odds, and covered
numbers that all parsed and lie in `[0, 36]`. -/
def validBetB (b : RouletteBet) : Bool :=
  (match b.amt with | some a => decide (0 < a) | none => false) &&
  (match b.odds with | some o => decide (0 ≤ o) | none => false) &&
  (match b.numbers with | some nums => nums.all (fun n => n ≤ 36) | none => false)

/-- Total staked across a bet list (`total_bet` in the source). -/
def totalStake (bets : List RouletteBet) : Int :=
  (bets.map (fun b => b.amt.getD 0)).sum

/-- The spec's per-bet payout: `amount + odds*amount` when the bet's
covered numbers include the winning number, else 0. -/
def betPayout (winning : Nat) (b : RouletteBet) : Int :=
  if (b.numbers.getD []).contains winning
    then b.amt.getD 0 + (b.odds.getD 0) * (b.amt.getD 0) else 0

/-- The spec's total payout: sum of the winning bets' payouts. -/
def totalPayout (winning : Nat) (bets : List RouletteBet) : Int :=
  (bets.map (betPayout winning)).sum

theorem validate_bets_ok_of_valid (bets : List RouletteBet)
    (h : ∀ b ∈ bets, validBetB b = true) :
    validate_bets bets = .ok (totalStake bets) := by
  induction bets with
  | nil => rfl
  | cons b rest ih =>
    have hb := h b (List.mem_cons_self _ _)
    rw [validate_bets]
    cases ha : b.amt with
    | none => rw [validBetB, ha] at hb; simp at hb
    | some a =>
      dsimp only
      rw [validBetB, ha] at hb
      cases ho : b.odds with
      | none => rw [ho] at hb; simp at hb
      | some o =>
        rw [ho] at hb
        simp only [Bool.and_eq_true, decide_eq_true_eq] at hb
        obtain ⟨⟨h1, h2⟩, -⟩ := hb
        rw [if_neg (by omega)]
        dsimp only
        rw [if_neg (by omega)]
        rw [ih (fun b2 hb2 => h b2 (List.mem_cons_of_mem _ hb2))]
        simp [totalStake, ha, Except.map]

theorem settle_bets_ok_of_valid (winning : Nat) (bets : List RouletteBet)
    (h : ∀ b ∈ bets, validBetB b = true) :
    settle_bets winning bets = .ok (totalPayout winning bets) := by
  induction bets with
  | nil => rfl
  | cons b rest ih =>
    have hb := h b (List.mem_cons_self _ _)
    rw [settle_bets]
    cases hn : b.numbers with
    | none => rw [validBetB, hn] at hb; simp at hb
    | some nums =>
      dsimp only
      rw [validBetB, hn] at hb
      simp only [Bool.and_eq_true] at hb
      obtain ⟨-, h3⟩ := hb
      have h3' : nums.all (fun n => n ≤ 36) = true := h3
      have hany : nums.any (fun n => 36 < n) = false := by
        cases hx : nums.any (fun n => 36 < n)
        · rfl
        · obtain ⟨n, hmem, hgt⟩ := List.any_eq_true.mp hx
          have := List.all_eq_true.mp h3' n hmem
          simp at hgt this
          omega
      rw [hany]
      simp only [Bool.false_eq_true, if_false]
      rw [ih (fun b2 hb2 => h b2 (List.mem_cons_of_mem _ hb2))]
      dsimp only [Except.map]
      simp only [totalPayout, List.map_cons, List.sum_cons, betPayout, hn, Option.getD_some]
      by_cases hc : nums.contains winning
      · rw [if_pos hc, if_pos hc]
        ring_nf
      · rw [if_neg hc, if_neg hc]

theorem totalPayout_nonneg (winning : Nat) (bets : List RouletteBet)
    (h : ∀ b ∈ bets, validBetB b = true) :
    0 ≤ totalPayout winning bets := by
  induction bets with
  | nil => simp [totalPayout]
  | cons b rest ih =>
    have hb := h b (List.mem_cons_self _ _)
    rw [totalPayout, List.map_cons, List.sum_cons]
    have hrest : 0 ≤ totalPayout winning rest :=
      ih (fun b2 hb2 => h b2 (List.mem_cons_of_mem _ hb2))
    have hpay : 0 ≤ betPayout winning b := by
      rw [betPayout]
      by_cases hc : (b.numbers.getD []).contains winning
      · rw [if_pos hc]
        cases ha : b.amt with
        | none => rw [validBetB, ha] at hb; simp at hb
        | some a =>
          cases ho : b.odds with
          | none => rw [validBetB, ha, ho] at hb; simp at hb
          | some o =>
            rw [validBetB, ha, ho] at hb
            simp only [Bool.and_eq_true, decide_eq_true_eq] at hb
            obtain ⟨⟨h1, h2⟩, -⟩ := hb
            simp only [Option.getD_some]
            have := mul_nonneg h2 h1.le
            omega
      · rw [if_neg hc]
    rw [totalPayout] at hrest
    omega

/-- C7: for a non-empty list of well-formed bets and sufficient balance,
each bet covering the drawn number pays `amount + odds×amount`, the
call's `total_win` is the sum of those payouts, and the returned (and
committed) new balance is the old balance minus the total staked plus
`total_win`. -/
theorem roulette_valid_settlement (db : AccountDB) (bets : List RouletteBet)
    (winning : Nat) (hne : bets ≠ [])
    (hvalid : ∀ b ∈ bets, validBetB b = true)
    (hcoins : totalStake bets ≤ db.coins) :
    (rouletteAction db bets winning).1 =
      .ok winning (totalStake bets) (totalPayout winning bets)
        (db.coins - totalStake bets + totalPayout winning bets) ∧
    (rouletteAction db bets winning).2.coins =
      db.coins - totalStake bets + totalPayout winning bets := by
  have hie : bets.isEmpty = false := by
    cases bets
    · exact absurd rfl hne
    · rfl
  rw [rouletteAction, hie]
  simp only [Bool.false_eq_true, if_false]
  rw [validate_bets_ok_of_valid bets hvalid]
  dsimp only
  rw [if_neg (by omega)]
  rw [settle_bets_ok_of_valid winning bets hvalid]
  dsimp only
  by_cases hw : 0 < totalPayout winning bets
  · rw [if_pos hw]
    exact ⟨rfl, rfl⟩
  · rw [if_neg hw]
    have h0 : totalPayout winning bets = 0 :=
      le_antisymm (not_lt.mp hw) (totalPayout_nonneg winning bets hvalid)
    rw [h0]
    constructor <;> simp

/-- The two-bet batch of the C7 witness: 10 on 17 at odds 35 and 20 on
2-3 at odds 17, drawn number 17. -/
def demoBets : List RouletteBet :=
  [⟨some 10, some 35, some [17]⟩, ⟨some 20, some 17, some [2, 3]⟩]

/-- C7 witness: from 100 coins, stake 30, the first bet wins
`10 + 35×10 = 360`, the second loses, and the new balance is
`100 - 30 + 360 = 430`. -/
theorem roulette_valid_settlement_witness :
    (rouletteAction ⟨100, []⟩ demoBets 17).1 = .ok 17 30 360 430 ∧
    (rouletteAction ⟨100, []⟩ demoBets 17).2.coins = 430 :=
  roulette_valid_settlement ⟨100, []⟩ demoBets 17 (by decide) (by decide) (by decide)

/-- The `Fruit` enum of `game_logic/cherrycharm.py`. -/
inductive Fruit where
  | CHERRY | LEMON | BANANA | APPLE
deriving DecidableEq, Repr

/-- `endgame` from `game_logic/cherrycharm.py`, lines 77-113: the
if/elif payout chain over the three reel symbols. -/
def endgame (fruit0 fruit1 fruit2 : Fruit) : Int :=
  if fruit0 = .CHERRY ∧ fruit1 = .CHERRY ∧ fruit2 = .CHERRY then 50
  else if fruit0 = .CHERRY ∧ fruit1 = .CHERRY then 40
  else if fruit0 = .APPLE ∧ fruit1 = .APPLE ∧ fruit2 = .APPLE then 20
  else if fruit0 = .APPLE ∧ fruit1 = .APPLE then 10
  else if fruit0 = .BANANA ∧ fruit1 = .BANANA ∧ fruit2 = .BANANA then 15
  else if fruit0 = .BANANA ∧ fruit1 = .BANANA then 5
  else if fruit0 = .LEMON ∧ fruit1 = .LEMON ∧ fruit2 = .LEMON then 3
  else 0

/-- The payout table as the spec words it, as an ordered-combination
lookup ("three X" = all three reels show X; "two X" = reels 0 and 1
show X, three-of-a-kind taking precedence; anything else pays 0). -/
def slotSpecPayout : Fruit → Fruit → Fruit → Int
  | .CHERRY, .CHERRY, .CHERRY => 50
  | .CHERRY, .CHERRY, _ => 40
  | .APPLE, .APPLE, .APPLE => 20
  | .APPLE, .APPLE, _ => 10
  | .BANANA, .BANANA, .BANANA => 15
  | .BANANA, .BANANA, _ => 5
  | .LEMON, .LEMON, .LEMON => 3
  | _, _, _ => 0

/-- C8: the slot payout function agrees with the spec's payout table on
every combination of reel symbols. -/
theorem slot_payout_matches_table (fruit0 fruit1 fruit2 : Fruit) :
    endgame fruit0 fruit1 fruit2 = slotSpecPayout fruit0 fruit1 fruit2 := by
  cases fruit0 <;> cases fruit1 <;> cases fruit2 <;> rfl

/-- Contract model of `random.randint(lo, hi)` (both endpoints
included): an arbitrary injected seed mapped into `[lo, hi]`. -/
def randint (lo hi seed : Nat) : Nat :=
  lo + seed % (hi - lo + 1)

/-- `spin_reels` from `game_logic/cherrycharm.py`, lines 10-13:
`[random.randint(15, 30) for _ in range(3)]`, one seed per reel. -/
def spin_reels (s0 s1 s2 : Nat) : List Nat :=
  [randint 15 30 s0, randint 15 30 s1, randint 15 30 s2]

/-- `ceildiv(a, b) = -(a // -b)` with Python floor division. -/
def ceildiv (a b : Int) : Int :=
  -(Int.fdiv a (-b))

/-- The `fruit_mappings` dict of `segment_to_fruit` (lines 34-65). -/
def fruit_mapping : Nat → List (Int × Fruit)
  | 0 => [(8, .CHERRY), (9, .LEMON), (10, .LEMON), (11, .BANANA),
          (12, .BANANA), (13, .LEMON), (14, .APPLE), (15, .LEMON)]
  | 1 => [(8, .LEMON), (9, .LEMON), (10, .BANANA), (11, .APPLE),
          (12, .CHERRY), (13, .LEMON), (14, .LEMON), (15, .APPLE)]
  | 2 => [(8, .LEMON), (9, .LEMON), (10, .BANANA), (11, .LEMON),
          (12, .CHERRY), (13, .APPLE), (14, .LEMON), (15, .APPLE)]
  | _ => []

/-- `segment_to_fruit` from `game_logic/cherrycharm.py`, lines 30-74:
halve the stop segment with `ceildiv`, then look it up in the reel's
table; an unhandled segment yields `None`. -/
def segment_to_fruit (reel_index : Nat) (reel_segment : Int) : Option Fruit :=
  (fruit_mapping reel_index).lookup (ceildiv reel_segment 2)

/-- `get_fruits` (lines 15-16): `segment_to_fruit(reel, segment) for
reel, segment in enumerate(stop_segments)`. -/
def get_fruits (stop_segments : List Int) : List (Option Fruit) :=
  stop_segments.enum.map (fun p => segment_to_fruit p.1 p.2)

/-- `calculate_winnings` (lines 18-19): `endgame(*fruits)`, defined only
when exactly three resolved fruits are present (anything else raises). -/
def calculate_winnings : List (Option Fruit) → Option Int
  | [some f0, some f1, some f2] => some (endgame f0 f1 f2)
  | _ => none

theorem randint_15_30_bounds (s : Nat) :
    15 ≤ randint 15 30 s ∧ randint 15 30 s ≤ 30 := by
  rw [randint]
  have := Nat.mod_lt s (show 0 < (30 - 15 + 1) by decide)
  omega

theorem segment_to_fruit_isSome (r : Fin 3) (v : Fin 16) :
    (segment_to_fruit r (Int.ofNat (15 + (v : Nat)))).isSome = true := by
  revert r v
  decide

theorem segment_to_fruit_randint_isSome (r : Nat) (hr : r < 3) (s : Nat) :
    (segment_to_fruit r (Int.ofNat (randint 15 30 s))).isSome = true := by
  have h16 := Nat.mod_lt s (show 0 < 16 by decide)
  have h := segment_to_fruit_isSome ⟨r, hr⟩ ⟨s % 16, h16⟩
  rw [randint]
  exact h

/-- C10: every reel stop produced by `spin_reels` lies in `[15, 30]`,
so after `ceildiv` by 2 it maps to a segment in `[8, 15]`, a key of
every reel's lookup table; hence `segment_to_fruit` never yields `None`
on an engine-generated spin and the payout computation is defined. -/
theorem spin_reels_segments_always_mapped (s0 s1 s2 : Nat) :
    (∀ stop ∈ spin_reels s0 s1 s2, 15 ≤ stop ∧ stop ≤ 30) ∧
    (calculate_winnings (get_fruits
        ((spin_reels s0 s1 s2).map Int.ofNat))).isSome = true := by
  constructor
  · intro stop hstop
    rw [spin_reels] at hstop
    rcases List.mem_cons.mp hstop with he | hstop
    · exact he ▸ randint_15_30_bounds s0
    rcases List.mem_cons.mp hstop with he | hstop
    · exact he ▸ randint_15_30_bounds s1
    rcases List.mem_cons.mp hstop with he | hstop
    · exact he ▸ randint_15_30_bounds s2
    · simp at hstop
  · obtain ⟨f0, h0⟩ := Option.isSome_iff_exists.mp
      (segment_to_fruit_randint_isSome 0 (by decide) s0)
    obtain ⟨f1, h1⟩ := Option.isSome_iff_exists.mp
      (segment_to_fruit_randint_isSome 1 (by decide) s1)
    obtain ⟨f2, h2⟩ := Option.isSome_iff_exists.mp
      (segment_to_fruit_randint_isSome 2 (by decide) s2)
    rw [spin_reels, List.map_cons, List.map_cons, List.map_cons, List.map_nil,
      get_fruits]
    dsimp only [List.enum, List.enumFrom, List.map]
    rw [h0, h1, h2]
    rfl

/-- C10 witness: the theorem at seeds 0, 7, 15. -/
theorem spin_reels_segments_always_mapped_witness :
    (calculate_winnings (get_fruits
        ((spin_reels 0 7 15).map Int.ofNat))).isSome = true :=
  (spin_reels_segments_always_mapped 0 7 15).2

end ImperioCasino
